import Mathlib

/-!
Shallow embedding of the blueprint subsystem
(`homeassistant/components/blueprint/models.py`) and the deCONZ device
wrapper (`homeassistant/components/deconz/deconz_device.py`).

Documents are YAML-like trees; mappings are association lists with
Python-dict lookup semantics (first binding wins after our update
operation, which prepends).  Exceptions are modelled with `Except`,
async methods as pure state-passing functions.
-/

namespace HA

/-- Model of a parsed YAML value.  The `placeholder` constructor models a
`!input <name>` tagged node, the marker syntax recognised by the
placeholder engine. -/
inductive JValue where
  | str : String → JValue
  | placeholder : String → JValue
  | list : List JValue → JValue
  | map : List (String × JValue) → JValue

mutual

/-- Modelled from the spec: `extract_placeholders(document)` of the
placeholder engine (`homeassistant.helpers.placeholder`, not under src/)
"walks the entire document tree (lists, mappings, scalars) and collects
every distinct placeholder reference found"; returns a set. -/
def extractV : JValue → Finset String
  | .str _ => ∅
  | .placeholder n => {n}
  | .list xs => extractL xs
  | .map xs => extractM xs

/-- List case of the placeholder-extraction tree walk. -/
def extractL : List JValue → Finset String
  | [] => ∅
  | v :: vs => extractV v ∪ extractL vs

/-- Mapping case of the placeholder-extraction tree walk. -/
def extractM : List (String × JValue) → Finset String
  | [] => ∅
  | (_, v) :: vs => extractV v ∪ extractM vs

end

mutual

/-- Modelled from the spec: `substitute(document, values)` of the
placeholder engine (not under src/) "produces a structurally identical
tree where every placeholder reference is replaced by the corresponding
value from `values`", failing (`UndefinedPlaceholder`, modelled as
`none`) if a reference has no corresponding entry. -/
def substV (values : List (String × JValue)) : JValue → Option JValue
  | .str s => some (.str s)
  | .placeholder n => values.lookup n
  | .list xs => (substL values xs).map .list
  | .map xs => (substM values xs).map .map

/-- List case of placeholder substitution. -/
def substL (values : List (String × JValue)) : List JValue → Option (List JValue)
  | [] => some []
  | v :: vs => do
      let v' ← substV values v
      let vs' ← substL values vs
      pure (v' :: vs')

/-- Mapping case of placeholder substitution. -/
def substM (values : List (String × JValue)) :
    List (String × JValue) → Option (List (String × JValue))
  | [] => some []
  | (k, v) :: vs => do
      let v' ← substV values v
      let vs' ← substM values vs
      pure ((k, v') :: vs')

end

/-- Keys of an association-list mapping, as a set (Python `set(dict)`). -/
def keysOf (m : List (String × JValue)) : Finset String :=
  (m.map Prod.fst).toFinset

/-- Constant `CONF_BLUEPRINT` from the component's `const.py` (not under
src/): the key of the blueprint-metadata block. -/
def CONF_BLUEPRINT : String := "blueprint"

/-- Constant `CONF_USE_BLUEPRINT`: the key of the use-this-blueprint
section of an instance configuration. -/
def CONF_USE_BLUEPRINT : String := "use_blueprint"

/-- Constant `CONF_INPUT`: the key of the declared-inputs mapping and of
the supplied-inputs mapping. -/
def CONF_INPUT : String := "input"

/-- Modelled from the spec: semantic-version values as parsed by
`pkg_resources.parse_version` (not under src/), restricted to plain
dotted numeric releases, as lists of numeric components. -/
def Version := List Nat

/-- Modelled from the spec: strict semantic-version comparison
(`parse_version(a) < parse_version(b)`), component-wise lexicographic
with missing trailing components reading as zero. -/
def versionLt : List Nat → List Nat → Bool
  | [], bs => bs.any (fun b => decide (0 < b))
  | a :: as, [] => decide (a = 0) && versionLt as []
  | a :: as, b :: bs => decide (a < b) || (decide (a = b) && versionLt as bs)

/-- Render a parsed version back to its dotted string form. -/
def versionString (v : List Nat) : String :=
  String.intercalate "." (v.map toString)

/-- Modelled from the spec: a document that passed `BLUEPRINT_SCHEMA`
(in `schemas.py`, not under src/) — the metadata block carries `domain`
(string, required), `name` (string, required), `input` (mapping of
placeholder-name to optional descriptor, required), an optional
`homeassistant.min_version` and an optional `source_url`. -/
structure BlueprintMeta where
  domain : String
  name : String
  inputDefs : List (String × JValue)
  min_version : Option (List Nat)
  source_url : Option String

/-- A schema-valid blueprint document: the metadata block plus the
remaining top-level body entries. -/
structure BlueprintDoc where
  blueprint : BlueprintMeta
  body : List (String × JValue)

/-- Render the metadata block back as a document value. -/
def BlueprintMeta.toJ (m : BlueprintMeta) : JValue :=
  .map ([("domain", .str m.domain), ("name", .str m.name),
         ("input", .map m.inputDefs)]
    ++ (match m.min_version with
        | none => []
        | some v => [("homeassistant", .map [("min_version", .str (versionString v))])])
    ++ (match m.source_url with
        | none => []
        | some u => [("source_url", .str u)]))

/-- Render the full document tree (the `data` dict of the Python code):
the `blueprint` metadata block together with the body entries. -/
def BlueprintDoc.toData (d : BlueprintDoc) : JValue :=
  .map ((CONF_BLUEPRINT, d.blueprint.toJ) :: d.body)

/-- Structured content of the message strings passed to
`InvalidBlueprint`; carrying the data instead of the joined string keeps
the model independent of Python set-iteration order. -/
inductive BPMsg where
  | schemaInvalid
  | wrongDomain (found expected : String)
  | missingInputDefinition (missing : Finset String)

/-- The error taxonomy of `errors.py` as raised by the modelled code:
`InvalidBlueprint{domain, path, msg}`, `FailedToLoad{domain, path}`,
`MissingPlaceholder{domain, blueprint_name, missing}`,
`FileAlreadyExists{domain, path}`. -/
inductive BlueprintError where
  | invalidBlueprint (domain : Option String) (path : Option String) (msg : BPMsg)
  | failedToLoad (domain : String) (path : String)
  | missingPlaceholder (domain : String) (name : String) (missing : Finset String)
  | fileAlreadyExists (domain : String) (path : String)

/-- The `Blueprint` object: its (schema-valid) document, the placeholder
set computed at construction, and the domain taken from the metadata. -/
structure Blueprint where
  data : BlueprintDoc
  placeholders : Finset String
  domain : String

/-- Property `Blueprint.name`: the name field of the metadata block. -/
def Blueprint.name (b : Blueprint) : String :=
  b.data.blueprint.name

/-- The set of declared input names: `set(data[CONF_BLUEPRINT][CONF_INPUT])`. -/
def declaredInputs (d : BlueprintDoc) : Finset String :=
  keysOf d.blueprint.inputDefs

/-- `Blueprint.__init__` after schema validation (the schema itself is
modelled by the `BlueprintDoc` type): extract the placeholders, check
the expected domain, then require every placeholder to have an input
definition; raising is modelled by `Except.error`. -/
def mkBlueprint (data : BlueprintDoc) (path : Option String)
    (expected_domain : Option String) : Except BlueprintError Blueprint :=
  let placeholders := extractV data.toData
  let data_domain := data.blueprint.domain
  if expected_domain ≠ none ∧ some data_domain ≠ expected_domain then
    .error (.invalidBlueprint expected_domain
      (some (path.getD data.blueprint.name))
      (.wrongDomain data_domain (expected_domain.getD "")))
  else
    let missing := placeholders \ declaredInputs data
    if missing.Nonempty then
      .error (.invalidBlueprint (some data_domain)
        (some (path.getD data.blueprint.name))
        (.missingInputDefinition missing))
    else
      .ok { data := data, placeholders := placeholders, domain := data_domain }

/-- `Blueprint.validate` (the environment check): if the metadata
declares a minimum version and the running version is below it, return
the one-element error list, else `None`.  The running version
(`homeassistant.const.__version__`, not under src/) is passed
explicitly. -/
def Blueprint.validate (b : Blueprint) (currentVersion : List Nat) :
    Option (List String) :=
  let errors :=
    match b.data.blueprint.min_version with
    | none => []
    | some mv =>
      if versionLt currentVersion mv then
        ["Requires at least Home Assistant " ++ versionString mv]
      else []
  if errors.isEmpty then none else some errors

/-- Python dict merge `\x7b**a, **b\x7d` at lookup level: entries of `b`
override entries of `a` with the same key. -/
def dictMerge (a b : List (String × JValue)) : List (String × JValue) :=
  a.filter (fun p => (b.lookup p.1).isNone) ++ b

/-- Python `dict.pop(k)` at lookup level: remove the binding for `k`. -/
def dictPop (k : String) (m : List (String × JValue)) : List (String × JValue) :=
  m.filter (fun p => p.1 ≠ k)

/-- An instance configuration that passed `BLUEPRINT_INSTANCE_FIELDS`
(modelled from the spec: a `use_blueprint` section with a required
`path` string and a required `input` mapping, plus the remaining
top-level entries). -/
structure InstanceConfig where
  path : String
  inputValues : List (String × JValue)
  extra : List (String × JValue)

/-- Render the instance configuration as the caller's top-level dict
(`config_with_inputs` in the Python code). -/
def InstanceConfig.toMap (c : InstanceConfig) : List (String × JValue) :=
  (CONF_USE_BLUEPRINT,
    .map [("path", .str c.path), (CONF_INPUT, .map c.inputValues)]) :: c.extra

/-- `BlueprintInputs`: a blueprint together with the caller's full
configuration object. -/
structure BlueprintInputs where
  blueprint : Blueprint
  config_with_inputs : InstanceConfig

/-- Property `BlueprintInputs.inputs`:
`config_with_inputs[CONF_USE_BLUEPRINT][CONF_INPUT]`. -/
def BlueprintInputs.inputs (bi : BlueprintInputs) : List (String × JValue) :=
  bi.config_with_inputs.inputValues

/-- `BlueprintInputs.validate`: compute
`missing = blueprint.placeholders - set(inputs)` and raise
`MissingPlaceholder(domain, name, missing)` when non-empty. -/
def BlueprintInputs.validate (bi : BlueprintInputs) : Except BlueprintError Unit :=
  let missing := bi.blueprint.placeholders \ keysOf bi.inputs
  if missing.Nonempty then
    .error (.missingPlaceholder bi.blueprint.domain bi.blueprint.name missing)
  else
    .ok ()

/-- `BlueprintInputs.async_substitute`: substitute the inputs into the
blueprint document, merge the result over `config_with_inputs`, then pop
the `use_blueprint` and `blueprint` keys; `none` models the defensive
`UndefinedPlaceholder` failure of the engine. -/
def BlueprintInputs.async_substitute (bi : BlueprintInputs) :
    Option (List (String × JValue)) :=
  match substV bi.inputs bi.blueprint.data.toData with
  | some (.map processed) =>
      some (dictPop CONF_BLUEPRINT
        (dictPop CONF_USE_BLUEPRINT
          (dictMerge bi.config_with_inputs.toMap processed)))
  | _ => none

/-- Modelled from the spec: what a stored blueprint file can hold once
read and parsed (`yaml.load_yaml` and `BLUEPRINT_SCHEMA` are not under
src/): unreadable or unparsable content, content that fails the
blueprint schema, or a schema-valid document. -/
inductive FileData where
  | bad
  | schemaBad
  | good (d : BlueprintDoc)

/-- State of a `DomainBlueprints` registry: its domain, the
`_blueprints` cache (path to `Blueprint | None`), and the domain's
blueprint directory as a mapping from relative path to file content. -/
structure RegistryState where
  domain : String
  cache : List (String × Option Blueprint)
  fs : List (String × FileData)

/-- Python dict assignment `cache[path] = v` at lookup level. -/
def cacheSet (c : List (String × Option Blueprint)) (path : String)
    (v : Option Blueprint) : List (String × Option Blueprint) :=
  (path, v) :: c

/-- `DomainBlueprints._load_blueprint`: read and parse the file (any
read or parse failure becomes `FailedToLoad`), then run the `Blueprint`
constructor with `expected_domain` set to the registry's domain. -/
def loadBlueprint (domain : String) (fs : List (String × FileData))
    (path : String) : Except BlueprintError Blueprint :=
  match fs.lookup path with
  | none => .error (.failedToLoad domain path)
  | some .bad => .error (.failedToLoad domain path)
  | some .schemaBad =>
      .error (.invalidBlueprint (some domain) (some path) .schemaInvalid)
  | some (.good d) => mkBlueprint d (some path) (some domain)

/-- Result of one `async_get_blueprint` call: what the caller receives
(the raised error, or the returned `Blueprint` — `none` when the cached
failure marker is returned), the registry state afterwards, and how many
disk reads the call performed. -/
structure GetResult where
  res : Except BlueprintError (Option Blueprint)
  st : RegistryState
  diskReads : Nat

/-- `DomainBlueprints.async_get_blueprint`: fast path returns the cache
entry as-is (including a cached `None`); on a miss, load from disk (one
disk read), caching `None` and re-raising on failure, caching and
returning the blueprint on success. -/
def async_get_blueprint (st : RegistryState) (path : String) : GetResult :=
  match st.cache.lookup path with
  | some v => { res := .ok v, st := st, diskReads := 0 }
  | none =>
    match loadBlueprint st.domain st.fs path with
    | .error e =>
        { res := .error e,
          st := { st with cache := cacheSet st.cache path none },
          diskReads := 1 }
    | .ok bp =>
        { res := .ok (some bp),
          st := { st with cache := cacheSet st.cache path (some bp) },
          diskReads := 1 }

/-- `DomainBlueprints.async_reset_cache`: clear the cache. -/
def async_reset_cache (st : RegistryState) : RegistryState :=
  { st with cache := [] }

/-- `DomainBlueprints.async_remove_blueprint`: unlink the backing file
(raising `FileNotFoundError`, modelled as `Except.error ()`, when it
does not exist) and then set the cache entry for the path to `None`. -/
def async_remove_blueprint (st : RegistryState) (path : String) :
    Except Unit RegistryState :=
  if (st.fs.lookup path).isSome then
    .ok { st with
          fs := st.fs.filter (fun p => p.1 ≠ path),
          cache := cacheSet st.cache path none }
  else
    .error ()

/-- Append the standard `.yaml` extension when the caller omitted it
(`async_add_blueprint`, first step). -/
def withYamlExt (path : String) : String :=
  if path.endsWith ".yaml" then path else path ++ ".yaml"

/-- `DomainBlueprints.async_add_blueprint` with `_create_file` inlined:
normalise the extension; fail with `FileAlreadyExists` when the target
exists; otherwise write the serialized blueprint (its document, in this
model) and cache the blueprint under the extension-bearing path. -/
def async_add_blueprint (st : RegistryState) (bp : Blueprint)
    (path : String) : Except BlueprintError RegistryState :=
  let path := withYamlExt path
  if (st.fs.lookup path).isSome then
    .error (.fileAlreadyExists st.domain path)
  else
    .ok { st with
          fs := (path, .good bp.data) :: st.fs,
          cache := cacheSet st.cache path (some bp) }

/-- Run `n` callers of `async_get_blueprint` for the same path.  The
registry lock serializes the cache-miss slow paths, so a group of
concurrent callers that all find the path uncached executes exactly as
this sequence: each caller in turn re-checks the cache and only loads on
a miss.  Returns every caller's result, the final state, and the total
number of disk reads. -/
def runGetCalls (st : RegistryState) (path : String) :
    Nat → List (Except BlueprintError (Option Blueprint)) × RegistryState × Nat
  | 0 => ([], st, 0)
  | n + 1 =>
    let r := async_get_blueprint st path
    let (rs, st2, reads) := runGetCalls r.st path n
    (r.res :: rs, st2, r.diskReads + reads)

end HA

namespace Deconz

/-- Fields of the vendor device object that `DeconzBase` reads.  Python
strings are modelled as `List Char`. -/
structure Device where
  uniqueid : Option (List Char)
  manufacturer : List Char
  modelid : List Char
  name : List Char
  swversion : List Char

/-- Python `s.split(sep, 1)`: the part before the first occurrence of
`sep` and, when `sep` occurs, the remainder after it. -/
def splitFirst (sep : Char) : List Char → List Char × Option (List Char)
  | [] => ([], none)
  | c :: cs =>
    if c = sep then ([], some cs)
    else
      let r := splitFirst sep cs
      (c :: r.1, r.2)

/-- Property `DeconzBase.serial`: `None` when `uniqueid` is `None` or
does not contain exactly seven colons, otherwise
`uniqueid.split("-", 1)[0]`. -/
def serial (d : Device) : Option (List Char) :=
  match d.uniqueid with
  | none => none
  | some uid =>
    if uid.count ':' ≠ 7 then none
    else some (splitFirst '-' uid).1

/-- The device-registry description built by `DeconzBase.device_info`. -/
structure DeviceInfo where
  connectionSerial : List Char
  identifierSerial : List Char
  manufacturer : List Char
  model : List Char
  name : List Char
  sw_version : List Char
  via_device : List Char

/-- Property `DeconzBase.device_info`: `None` when `serial` is `None`,
otherwise the description dict built from the device fields and the
gateway's bridge id. -/
def device_info (d : Device) (bridgeid : List Char) : Option DeviceInfo :=
  match serial d with
  | none => none
  | some s =>
    some { connectionSerial := s, identifierSerial := s,
           manufacturer := d.manufacturer, model := d.modelid,
           name := d.name, sw_version := d.swversion,
           via_device := bridgeid }

end Deconz

namespace HA

/-- Example document of the spec: metadata declaring input `target`,
body `action.service = !input target`. -/
def exampleDoc : BlueprintDoc :=
  { blueprint := { domain := "automation", name := "Test",
                   inputDefs := [("target", .map [])],
                   min_version := none, source_url := none },
    body := [("action", .map [("service", .placeholder "target")])] }

/-- Example document of the spec whose body references the undeclared
placeholder `other`. -/
def exampleBadDoc : BlueprintDoc :=
  { blueprint := { domain := "automation", name := "Test",
                   inputDefs := [("target", .map [])],
                   min_version := none, source_url := none },
    body := [("action", .map [("service", .placeholder "other")])] }

/-- Example document declaring a minimum Home Assistant version. -/
def exampleMinVerDoc : BlueprintDoc :=
  { blueprint := { domain := "automation", name := "Test",
                   inputDefs := [("target", .map [])],
                   min_version := some [2021, 2], source_url := none },
    body := [("action", .map [("service", .placeholder "target")])] }

/-- The blueprint constructed from `exampleDoc`. -/
def exampleBlueprint : Blueprint :=
  { data := exampleDoc, placeholders := extractV exampleDoc.toData,
    domain := "automation" }

/-- The blueprint constructed from `exampleMinVerDoc`. -/
def exampleMinVerBlueprint : Blueprint :=
  { data := exampleMinVerDoc,
    placeholders := extractV exampleMinVerDoc.toData,
    domain := "automation" }

/-- An instance configuration that omits the `target` input. -/
def exampleMissingConfig : InstanceConfig :=
  { path := "test.yaml", inputValues := [], extra := [] }

/-- An instance configuration supplying `target`. -/
def exampleGoodConfig : InstanceConfig :=
  { path := "test.yaml",
    inputValues := [("target", .str "light.kitchen")],
    extra := [("id", .str "my automation")] }

/-- A registry for the automation domain with an empty cache and an
empty blueprint directory. -/
def exampleEmptyState : RegistryState :=
  { domain := "automation", cache := [], fs := [] }

/-- A registry whose directory holds one unparsable file, already in the
cached-failed state for it. -/
def exampleFailedState : RegistryState :=
  { domain := "automation",
    cache := [("broken.yaml", none)],
    fs := [("broken.yaml", .bad)] }

/-- A registry whose directory holds one loadable blueprint file, not
yet cached. -/
def exampleGoodFsState : RegistryState :=
  { domain := "automation", cache := [],
    fs := [("good.yaml", .good exampleDoc)] }

end HA

namespace Deconz

/-- The first component of `splitFirst` is the prefix before the first
occurrence of the separator. -/
theorem splitFirst_fst (sep : Char) (s : List Char) :
    (splitFirst sep s).1 = s.takeWhile (fun c => c ≠ sep) := by
  induction s with
  | nil => rfl
  | cons c cs ih =>
    by_cases h : c = sep
    · simp [splitFirst, h, List.takeWhile]
    · simp [splitFirst, h, List.takeWhile, ih]

end Deconz

/-- C10: `serial` is `None` exactly when the unique id is `None` or does
not contain exactly seven colons; otherwise it is the prefix of the
unique id before its first dash; and `device_info` is `None` exactly
when `serial` is. -/
theorem claim_C10_deconz_serial_device_info (d : Deconz.Device)
    (bridgeid : List Char) :
    (Deconz.serial d = none ↔
      (d.uniqueid = none ∨ ∃ uid, d.uniqueid = some uid ∧ uid.count ':' ≠ 7))
    ∧ (∀ uid, d.uniqueid = some uid → uid.count ':' = 7 →
        Deconz.serial d = some (uid.takeWhile (fun c => c ≠ '-')))
    ∧ (Deconz.device_info d bridgeid = none ↔ Deconz.serial d = none) := by
  refine ⟨?_, ?_, ?_⟩
  · cases huid : d.uniqueid with
    | none => simp [Deconz.serial, huid]
    | some uid =>
      by_cases h : uid.count ':' = 7
      · simp [Deconz.serial, huid, h]
      · simp [Deconz.serial, huid, h]
  · intro uid huid hc
    simp [Deconz.serial, huid, hc, Deconz.splitFirst_fst]
  · cases hs : Deconz.serial d with
    | none => simp [Deconz.device_info, hs]
    | some s => simp [Deconz.device_info, hs]

/-- Witness for C10 at a concrete device: a unique id with seven colons
yields the serial before the dash, and a malformed unique id yields
`None`. -/
theorem claim_C10_witness :
    (Deconz.serial
        { uniqueid := some ("00:11:22:33:44:55:66:77-01".toList),
          manufacturer := [], modelid := [], name := [], swversion := [] }
      = some ("00:11:22:33:44:55:66:77".toList)) ∧
    (Deconz.device_info
        { uniqueid := some ("bad".toList),
          manufacturer := [], modelid := [], name := [], swversion := [] } []
      = none) := by
  constructor
  · exact (claim_C10_deconz_serial_device_info _ []).2.1
      ("00:11:22:33:44:55:66:77-01".toList) rfl (by decide)
  · exact (claim_C10_deconz_serial_device_info _ []).2.2.mpr
      ((claim_C10_deconz_serial_device_info _ []).1.mpr
        (Or.inr ⟨"bad".toList, rfl, by decide⟩))

/-- C1: for a schema-valid document whose declared inputs cover its
placeholders, construction succeeds and the blueprint's `placeholders`
field is `extract_placeholders` of the document and a subset of the
declared inputs. -/
theorem claim_C1_blueprint_construction (d : HA.BlueprintDoc)
    (path : Option String)
    (h : HA.extractV d.toData ⊆ HA.declaredInputs d) :
    ∃ bp, HA.mkBlueprint d path none = .ok bp ∧
      bp.placeholders = HA.extractV d.toData ∧
      bp.placeholders ⊆ HA.declaredInputs d := by
  have hm : HA.extractV d.toData \ HA.declaredInputs d = ∅ :=
    Finset.sdiff_eq_empty_iff_subset.mpr h
  refine ⟨{ data := d, placeholders := HA.extractV d.toData,
            domain := d.blueprint.domain }, ?_, rfl, h⟩
  simp [HA.mkBlueprint, hm]

/-- C2: a schema-valid document with a body placeholder missing from the
declared inputs never yields a blueprint — the constructor always raises
`InvalidBlueprint`, and (when no domain mismatch pre-empts it) the error
names exactly the missing inputs. -/
theorem claim_C2_undeclared_placeholder_fails (d : HA.BlueprintDoc)
    (path : Option String) (ed : Option String)
    (h : ¬ HA.extractV d.toData ⊆ HA.declaredInputs d) :
    (∃ dom p msg,
      HA.mkBlueprint d path ed = .error (.invalidBlueprint dom p msg)) ∧
    ((ed = none ∨ ed = some d.blueprint.domain) →
      HA.mkBlueprint d path ed =
        .error (.invalidBlueprint (some d.blueprint.domain)
          (some (path.getD d.blueprint.name))
          (.missingInputDefinition
            (HA.extractV d.toData \ HA.declaredInputs d)))) := by
  have hne : (HA.extractV d.toData \ HA.declaredInputs d).Nonempty :=
    Finset.sdiff_nonempty.mpr h
  have hsub : ∀ hc : ¬(ed ≠ none ∧ some d.blueprint.domain ≠ ed),
      HA.mkBlueprint d path ed =
        .error (.invalidBlueprint (some d.blueprint.domain)
          (some (path.getD d.blueprint.name))
          (.missingInputDefinition
            (HA.extractV d.toData \ HA.declaredInputs d))) := by
    intro hc
    simp [HA.mkBlueprint, hc, hne]
  constructor
  · by_cases hc : ed ≠ none ∧ some d.blueprint.domain ≠ ed
    · exact ⟨ed, some (path.getD d.blueprint.name),
        .wrongDomain d.blueprint.domain (ed.getD ""),
        by simp [HA.mkBlueprint, hc]⟩
    · exact ⟨_, _, _, hsub hc⟩
  · intro hed
    apply hsub
    rcases hed with h1 | h1 <;> simp [h1]

/-- C3: `BlueprintInputs.validate` raises `MissingPlaceholder` carrying
the blueprint's domain, name and the missing set exactly when
`blueprint.placeholders` minus the supplied input keys is non-empty, and
returns normally when that set is empty. -/
theorem claim_C3_inputs_validate (bi : HA.BlueprintInputs) :
    ((bi.blueprint.placeholders \ HA.keysOf bi.inputs).Nonempty →
      bi.validate = .error (.missingPlaceholder bi.blueprint.domain
        bi.blueprint.name
        (bi.blueprint.placeholders \ HA.keysOf bi.inputs)))
    ∧ (¬ (bi.blueprint.placeholders \ HA.keysOf bi.inputs).Nonempty →
      bi.validate = .ok ()) := by
  constructor <;> intro h <;> simp [HA.BlueprintInputs.validate, h]

/-- C8: the environment check returns `None` exactly when no minimum
version is declared or the running version is not below it under the
semantic comparator, and otherwise returns the non-empty singleton list
naming the required minimum. -/
theorem claim_C8_validate_environment (b : HA.Blueprint) (cur : List Nat) :
    (b.validate cur = none ↔
      ∀ mv, b.data.blueprint.min_version = some mv →
        HA.versionLt cur mv = false)
    ∧ (∀ mv, b.data.blueprint.min_version = some mv →
        HA.versionLt cur mv = true →
        b.validate cur =
          some ["Requires at least Home Assistant " ++ HA.versionString mv]) := by
  constructor
  · cases hmv : b.data.blueprint.min_version with
    | none => simp [HA.Blueprint.validate, hmv]
    | some mv =>
      cases hlt : HA.versionLt cur mv <;>
        simp [HA.Blueprint.validate, hmv, hlt]
  · intro mv hmv hlt
    simp [HA.Blueprint.validate, hmv, hlt]


/-- Witness for C1 at the spec's example document. -/
theorem claim_C1_witness :
    HA.extractV HA.exampleDoc.toData ⊆ HA.declaredInputs HA.exampleDoc ∧
    ∃ bp, HA.mkBlueprint HA.exampleDoc none none = .ok bp ∧
      bp.placeholders = HA.extractV HA.exampleDoc.toData ∧
      bp.placeholders ⊆ HA.declaredInputs HA.exampleDoc :=
  ⟨by decide, claim_C1_blueprint_construction HA.exampleDoc none (by decide)⟩

/-- Witness for C2 at the spec's example document with the undeclared
placeholder `other`: construction fails naming `other`. -/
theorem claim_C2_witness :
    ¬ HA.extractV HA.exampleBadDoc.toData ⊆ HA.declaredInputs HA.exampleBadDoc ∧
    HA.mkBlueprint HA.exampleBadDoc none none =
      .error (.invalidBlueprint (some "automation") (some "Test")
        (.missingInputDefinition {"other"})) := by
  refine ⟨by decide, ?_⟩
  have h := (claim_C2_undeclared_placeholder_fails HA.exampleBadDoc none none
    (by decide)).2 (Or.inl rfl)
  rw [show HA.extractV HA.exampleBadDoc.toData \ HA.declaredInputs HA.exampleBadDoc
      = ({"other"} : Finset String) from by decide] at h
  exact h

/-- Witness for C3: omitting `target` from the supplied inputs makes
`validate` raise `MissingPlaceholder`. -/
theorem claim_C3_witness :
    (HA.exampleBlueprint.placeholders \
      HA.keysOf (HA.BlueprintInputs.inputs
        ⟨HA.exampleBlueprint, HA.exampleMissingConfig⟩)).Nonempty ∧
    HA.BlueprintInputs.validate ⟨HA.exampleBlueprint, HA.exampleMissingConfig⟩ =
      .error (.missingPlaceholder "automation" "Test" {"target"}) := by
  refine ⟨by decide, ?_⟩
  have h := (claim_C3_inputs_validate
    ⟨HA.exampleBlueprint, HA.exampleMissingConfig⟩).1 (by decide)
  rw [show HA.exampleBlueprint.placeholders \
      HA.keysOf (HA.BlueprintInputs.inputs
        ⟨HA.exampleBlueprint, HA.exampleMissingConfig⟩)
      = ({"target"} : Finset String) from by decide] at h
  exact h

namespace HA

/-- Lookup distributes over list append, preferring the left list. -/
theorem lookup_append {β : Type} (k : String) (l1 l2 : List (String × β)) :
    List.lookup k (l1 ++ l2) = (List.lookup k l1).or (List.lookup k l2) := by
  induction l1 with
  | nil => simp [List.lookup]
  | cons p t ih =>
    obtain ⟨a, b⟩ := p
    by_cases h : k = a
    · simp [List.lookup, h]
    · have hba : (k == a) = false := by simp [h]
      simp [List.lookup, hba, ih]

/-- Lookup through a filter whose predicate depends only on the key. -/
theorem lookup_filter_key {β : Type} (g : String → Bool) (k : String)
    (l : List (String × β)) :
    List.lookup k (l.filter (fun p => g p.1)) =
      if g k then List.lookup k l else none := by
  induction l with
  | nil => simp [List.lookup]
  | cons p t ih =>
    obtain ⟨a, b⟩ := p
    by_cases hka : k = a
    · subst hka
      cases hg : g k <;> simp [List.filter, hg, List.lookup, ih]
    · have hba : (k == a) = false := by simp [hka]
      cases hg : g a <;> simp [List.filter, hg, List.lookup, hba, ih]

/-- Lookup in a Python dict merge: the right dict overrides the left. -/
theorem dictMerge_lookup (k : String) (a b : List (String × JValue)) :
    List.lookup k (dictMerge a b) = (List.lookup k b).or (List.lookup k a) := by
  rw [dictMerge, lookup_append,
    lookup_filter_key (fun x => (List.lookup x b).isNone)]
  cases h : List.lookup k b <;> simp [h]

/-- Lookup after a Python dict pop: the popped key is gone, the rest is
unchanged. -/
theorem dictPop_lookup (k k' : String) (m : List (String × JValue)) :
    List.lookup k' (dictPop k m) = if k' = k then none else List.lookup k' m := by
  rw [dictPop, lookup_filter_key (fun x => decide (x ≠ k))]
  by_cases h : k' = k <;> simp [h]

end HA

/-- Witness for C8: a running version below the declared minimum yields
the singleton violation list naming the minimum. -/
theorem claim_C8_witness :
    HA.exampleMinVerBlueprint.data.blueprint.min_version = some [2021, 2] ∧
    HA.versionLt [2021, 1, 3] [2021, 2] = true ∧
    HA.exampleMinVerBlueprint.validate [2021, 1, 3] =
      some ["Requires at least Home Assistant " ++ HA.versionString [2021, 2]] :=
  ⟨rfl, by decide,
    (claim_C8_validate_environment HA.exampleMinVerBlueprint [2021, 1, 3]).2
      [2021, 2] rfl (by decide)⟩

/-- C5: `async_add_blueprint` appends the standard extension when
missing, fails with `FileAlreadyExists` (changing nothing) when the
target file exists, and otherwise writes the serialized blueprint to the
new file — touching no other file — and caches it under the
extension-bearing path. -/
theorem claim_C5_add_create_only (st : HA.RegistryState) (bp : HA.Blueprint)
    (path : String) :
    (path.endsWith ".yaml" = false → HA.withYamlExt path = path ++ ".yaml")
    ∧ (path.endsWith ".yaml" = true → HA.withYamlExt path = path)
    ∧ ((st.fs.lookup (HA.withYamlExt path)).isSome = true →
        HA.async_add_blueprint st bp path =
          .error (.fileAlreadyExists st.domain (HA.withYamlExt path)))
    ∧ ((st.fs.lookup (HA.withYamlExt path)).isSome = false →
        ∃ st2, HA.async_add_blueprint st bp path = .ok st2 ∧
          st2.fs.lookup (HA.withYamlExt path) = some (.good bp.data) ∧
          st2.cache.lookup (HA.withYamlExt path) = some (some bp) ∧
          st2.domain = st.domain ∧
          (∀ q, q ≠ HA.withYamlExt path → st2.fs.lookup q = st.fs.lookup q) ∧
          st.fs.lookup (HA.withYamlExt path) = none) := by
  refine ⟨fun h => by simp [HA.withYamlExt, h],
          fun h => by simp [HA.withYamlExt, h], ?_, ?_⟩
  · intro h
    simp [HA.async_add_blueprint, h]
  · intro h
    refine ⟨{ st with
              fs := (HA.withYamlExt path, .good bp.data) :: st.fs,
              cache := HA.cacheSet st.cache (HA.withYamlExt path) (some bp) },
      by simp [HA.async_add_blueprint, h, HA.cacheSet],
      by simp [List.lookup],
      by simp [HA.cacheSet, List.lookup],
      rfl, ?_, Option.not_isSome_iff_eq_none.mp (by simp [h])⟩
    intro q hq
    have hqb : (q == HA.withYamlExt path) = false := by simp [hq]
    simp [List.lookup, hqb]

/-- Witness for C5: adding to an empty registry with the extension-less
path `mine` creates `mine.yaml` and caches the blueprint there; adding
again fails with `FileAlreadyExists` and overwrites nothing. -/
theorem claim_C5_witness :
    (HA.exampleEmptyState.fs.lookup (HA.withYamlExt "mine")).isSome = false ∧
    HA.withYamlExt "mine" = "mine.yaml" ∧
    ∃ st2, HA.async_add_blueprint HA.exampleEmptyState HA.exampleBlueprint "mine"
        = .ok st2 ∧
      st2.fs.lookup "mine.yaml" = some (.good HA.exampleDoc) ∧
      st2.cache.lookup "mine.yaml" = some (some HA.exampleBlueprint) ∧
      HA.async_add_blueprint st2 HA.exampleBlueprint "mine" =
        .error (.fileAlreadyExists "automation" "mine.yaml") := by
  obtain ⟨st2, h1, h2, h3, h4, h5, h6⟩ :=
    (claim_C5_add_create_only HA.exampleEmptyState HA.exampleBlueprint "mine").2.2.2
      (by rfl)
  refine ⟨rfl, rfl, st2, h1, h2, h3, ?_⟩
  have h7 := (claim_C5_add_create_only st2 HA.exampleBlueprint "mine").2.2.1
    (by rw [h2]; rfl)
  rw [h4] at h7
  exact h7

/-- C6: when an uncached load fails, `async_get_blueprint` performs the
one disk read, propagates the error, and caches `None` for the path;
from any state where the path is cached as `None`, a later call reads
nothing, changes nothing and returns the cached `None`; an explicit
cache reset clears the marker. -/
theorem claim_C6_failed_load_cached_none (st : HA.RegistryState) (path : String)
    (e : HA.BlueprintError)
    (hmiss : st.cache.lookup path = none)
    (hfail : HA.loadBlueprint st.domain st.fs path = .error e) :
    (HA.async_get_blueprint st path).res = .error e
    ∧ (HA.async_get_blueprint st path).diskReads = 1
    ∧ (HA.async_get_blueprint st path).st.cache.lookup path = some none
    ∧ (∀ st2 : HA.RegistryState, st2.cache.lookup path = some none →
        (HA.async_get_blueprint st2 path).res = .ok none
        ∧ (HA.async_get_blueprint st2 path).diskReads = 0
        ∧ (HA.async_get_blueprint st2 path).st = st2)
    ∧ (HA.async_reset_cache
        (HA.async_get_blueprint st path).st).cache.lookup path = none := by
  refine ⟨by simp [HA.async_get_blueprint, hmiss, hfail],
          by simp [HA.async_get_blueprint, hmiss, hfail],
          by simp [HA.async_get_blueprint, hmiss, hfail, HA.cacheSet, List.lookup],
          ?_,
          by simp [HA.async_reset_cache, List.lookup]⟩
  intro st2 h2
  refine ⟨?_, ?_, ?_⟩ <;> simp [HA.async_get_blueprint, h2]

/-- Witness for C6: loading a path absent from the directory raises
`FailedToLoad`, and the follow-up call reads nothing and returns the
cached `None`. -/
theorem claim_C6_witness :
    (HA.async_get_blueprint HA.exampleEmptyState "a.yaml").res =
      .error (.failedToLoad "automation" "a.yaml") ∧
    (HA.async_get_blueprint
        (HA.async_get_blueprint HA.exampleEmptyState "a.yaml").st "a.yaml").diskReads
      = 0 ∧
    (HA.async_get_blueprint
        (HA.async_get_blueprint HA.exampleEmptyState "a.yaml").st "a.yaml").res
      = .ok none := by
  have h := claim_C6_failed_load_cached_none HA.exampleEmptyState "a.yaml"
    (.failedToLoad "automation" "a.yaml") rfl rfl
  exact ⟨h.1, (h.2.2.2.1 _ h.2.2.1).2.1, (h.2.2.2.1 _ h.2.2.1).1⟩

/-- Counterexample to C7 as stated: `async_remove_blueprint` does not
evict the cache entry or take the path out of the cached-failed state —
on a concrete registry in the cached-failed state for `broken.yaml`,
removing that path leaves the cache entry equal to `None`, the
cached-failed marker. -/
theorem claim_C7_counterexample :
    ¬ (∀ st2, HA.async_remove_blueprint HA.exampleFailedState "broken.yaml"
          = .ok st2 →
        st2.cache.lookup "broken.yaml" ≠ some none) := by
  intro h
  exact h _ rfl rfl

/-- C7 amended: `remove(path)` deletes the backing file and sets the
cache entry for the path to `None` — so the cache no longer holds a
Blueprint for the path, but the entry is not evicted: the path is left
in the cached-failed state and a later `get_one` returns `None` with no
disk read. -/
theorem claim_C7_remove_marks_failed (st : HA.RegistryState) (path : String)
    (hex : (st.fs.lookup path).isSome = true) :
    ∃ st2, HA.async_remove_blueprint st path = .ok st2 ∧
      st2.fs.lookup path = none ∧
      st2.cache.lookup path = some none ∧
      (∀ b : HA.Blueprint, ¬ st2.cache.lookup path = some (some b)) ∧
      (HA.async_get_blueprint st2 path).res = .ok none ∧
      (HA.async_get_blueprint st2 path).diskReads = 0 := by
  refine ⟨{ st with
            fs := st.fs.filter (fun p => p.1 ≠ path),
            cache := HA.cacheSet st.cache path none },
    by simp [HA.async_remove_blueprint, hex, HA.cacheSet], ?_, ?_, ?_, ?_, ?_⟩
  · have h := HA.lookup_filter_key (fun x => decide (x ≠ path)) path st.fs
    simpa using h
  · simp [HA.cacheSet, List.lookup]
  · intro b
    simp [HA.cacheSet, List.lookup]
  · simp [HA.async_get_blueprint, HA.cacheSet, List.lookup]
  · simp [HA.async_get_blueprint, HA.cacheSet, List.lookup]

/-- Witness for the amended C7 at a concrete registry: the file is gone
and the path is cached as `None`. -/
theorem claim_C7_witness :
    (HA.exampleFailedState.fs.lookup "broken.yaml").isSome = true ∧
    ∃ st2, HA.async_remove_blueprint HA.exampleFailedState "broken.yaml"
        = .ok st2 ∧
      st2.fs.lookup "broken.yaml" = none ∧
      st2.cache.lookup "broken.yaml" = some none := by
  obtain ⟨st2, h1, h2, h3, h4, h5, h6⟩ :=
    claim_C7_remove_marks_failed HA.exampleFailedState "broken.yaml" rfl
  exact ⟨rfl, st2, h1, h2, h3⟩

/-- A cache hit: `async_get_blueprint` returns the stored entry with no
disk read and no state change. -/
theorem getBlueprint_cached (st : HA.RegistryState) (path : String)
    (v : Option HA.Blueprint) (h : st.cache.lookup path = some v) :
    HA.async_get_blueprint st path = ⟨.ok v, st, 0⟩ := by
  simp [HA.async_get_blueprint, h]

/-- Repeated calls on a cached path all return the stored entry and
perform no disk reads. -/
theorem runGetCalls_cached (path : String) (v : Option HA.Blueprint) :
    ∀ (n : Nat) (st : HA.RegistryState), st.cache.lookup path = some v →
      HA.runGetCalls st path n = (List.replicate n (.ok v), st, 0)
  | 0, st, _ => by simp [HA.runGetCalls]
  | n + 1, st, h => by
    simp [HA.runGetCalls, getBlueprint_cached st path v h,
      runGetCalls_cached path v n st h, List.replicate]

/-- Counterexample to C9 as stated: two callers hitting the same
uncached path do share a single disk read, but when the load fails they
do not receive equal results — the first receives the raised error, the
second the cached `None`. -/
theorem claim_C9_counterexample :
    HA.exampleEmptyState.cache.lookup "a.yaml" = none ∧
    (HA.runGetCalls HA.exampleEmptyState "a.yaml" 2).2.2 = 1 ∧
    ¬ (∀ x ∈ (HA.runGetCalls HA.exampleEmptyState "a.yaml" 2).1,
        ∀ y ∈ (HA.runGetCalls HA.exampleEmptyState "a.yaml" 2).1, x = y) := by
  refine ⟨rfl, rfl, ?_⟩
  intro h
  have hl : (HA.runGetCalls HA.exampleEmptyState "a.yaml" 2).1 =
      [.error (.failedToLoad "automation" "a.yaml"), .ok none] := rfl
  have h2 := h (.error (.failedToLoad "automation" "a.yaml"))
    (by rw [hl]; exact List.mem_cons_self _ _)
    (.ok none) (by rw [hl]; simp)
  exact Except.noConfusion h2

/-- C9 amended: lock-serialized callers on the same uncached path issue
exactly one disk read in total; when the load succeeds every caller
receives the same blueprint, and when it fails the first caller receives
the error while every later caller receives the cached `None`. -/
theorem claim_C9_one_read_shared_result (st : HA.RegistryState) (path : String)
    (n : Nat) (hmiss : st.cache.lookup path = none) :
    (∀ bp, HA.loadBlueprint st.domain st.fs path = .ok bp →
      (HA.runGetCalls st path (n + 1)).1 =
        List.replicate (n + 1) (.ok (some bp)) ∧
      (HA.runGetCalls st path (n + 1)).2.2 = 1) ∧
    (∀ e, HA.loadBlueprint st.domain st.fs path = .error e →
      (HA.runGetCalls st path (n + 1)).1 =
        .error e :: List.replicate n (.ok none) ∧
      (HA.runGetCalls st path (n + 1)).2.2 = 1) := by
  constructor
  · intro bp hload
    have h1 : HA.async_get_blueprint st path =
        ⟨.ok (some bp),
          { st with cache := HA.cacheSet st.cache path (some bp) }, 1⟩ := by
      simp [HA.async_get_blueprint, hmiss, hload]
    have h2 := runGetCalls_cached path (some bp) n
      { st with cache := HA.cacheSet st.cache path (some bp) }
      (by simp [HA.cacheSet, List.lookup])
    constructor <;> simp [HA.runGetCalls, h1, h2, List.replicate]
  · intro e hload
    have h1 : HA.async_get_blueprint st path =
        ⟨.error e, { st with cache := HA.cacheSet st.cache path none }, 1⟩ := by
      simp [HA.async_get_blueprint, hmiss, hload]
    have h2 := runGetCalls_cached path none n
      { st with cache := HA.cacheSet st.cache path none }
      (by simp [HA.cacheSet, List.lookup])
    constructor <;> simp [HA.runGetCalls, h1, h2]

/-- Witness for the amended C9: three callers on a loadable uncached
path each get the blueprint off one disk read; two callers on a missing
path share one disk read, the first getting the error and the second the
cached `None`. -/
theorem claim_C9_witness :
    ((HA.runGetCalls HA.exampleGoodFsState "good.yaml" 3).1 =
        List.replicate 3 (.ok (some HA.exampleBlueprint)) ∧
      (HA.runGetCalls HA.exampleGoodFsState "good.yaml" 3).2.2 = 1) ∧
    ((HA.runGetCalls HA.exampleEmptyState "missing.yaml" 2).1 =
        .error (.failedToLoad "automation" "missing.yaml")
          :: List.replicate 1 (.ok none) ∧
      (HA.runGetCalls HA.exampleEmptyState "missing.yaml" 2).2.2 = 1) := by
  constructor
  · exact (claim_C9_one_read_shared_result HA.exampleGoodFsState "good.yaml" 2
      rfl).1 HA.exampleBlueprint rfl
  · exact (claim_C9_one_read_shared_result HA.exampleEmptyState "missing.yaml" 1
      rfl).2 _ rfl

/-- A key that is in the key set of a mapping has a successful lookup. -/
theorem lookup_isSome_of_mem (values : List (String × HA.JValue)) (n : String)
    (h : n ∈ HA.keysOf values) : (List.lookup n values).isSome := by
  simp only [HA.keysOf, List.mem_toFinset] at h
  induction values with
  | nil => simp at h
  | cons p t ih =>
    obtain ⟨a, b⟩ := p
    by_cases hna : n = a
    · simp [List.lookup, hna]
    · have hba : (n == a) = false := by simp [hna]
      simp only [List.map_cons, List.mem_cons] at h
      rcases h with h | h
      · exact absurd h hna
      · simpa [List.lookup, hba] using ih h

mutual

/-- Substitution succeeds on any value whose placeholders are all
covered by the supplied values. -/
theorem substV_total (values : List (String × HA.JValue)) :
    (v : HA.JValue) → HA.extractV v ⊆ HA.keysOf values →
      (HA.substV values v).isSome
  | .str s, _ => by simp [HA.substV]
  | .placeholder n, h => by
    have hn : n ∈ HA.keysOf values := h (by simp [HA.extractV])
    simpa [HA.substV] using lookup_isSome_of_mem values n hn
  | .list xs, h => by
    have h2 := substL_total values xs (by simpa [HA.extractV] using h)
    simpa [HA.substV] using h2
  | .map xs, h => by
    have h2 := substM_total values xs (by simpa [HA.extractV] using h)
    simpa [HA.substV] using h2

/-- Substitution succeeds on a list when its placeholders are covered. -/
theorem substL_total (values : List (String × HA.JValue)) :
    (xs : List HA.JValue) → HA.extractL xs ⊆ HA.keysOf values →
      (HA.substL values xs).isSome
  | [], _ => by simp [HA.substL]
  | v :: vs, h => by
    simp only [HA.extractL, Finset.union_subset_iff] at h
    obtain ⟨v', hv⟩ := Option.isSome_iff_exists.mp (substV_total values v h.1)
    obtain ⟨vs', hvs⟩ := Option.isSome_iff_exists.mp (substL_total values vs h.2)
    simp [HA.substL, hv, hvs]

/-- Substitution succeeds on a mapping when its placeholders are covered. -/
theorem substM_total (values : List (String × HA.JValue)) :
    (xs : List (String × HA.JValue)) → HA.extractM xs ⊆ HA.keysOf values →
      (HA.substM values xs).isSome
  | [], _ => by simp [HA.substM]
  | (k, v) :: vs, h => by
    simp only [HA.extractM, Finset.union_subset_iff] at h
    obtain ⟨v', hv⟩ := Option.isSome_iff_exists.mp (substV_total values v h.1)
    obtain ⟨vs', hvs⟩ := Option.isSome_iff_exists.mp (substM_total values vs h.2)
    simp [HA.substM, hv, hvs]

end

/-- C4: for a validated `BlueprintInputs` (whose blueprint carries the
placeholder set computed at construction), `async_substitute` succeeds
and returns the substituted blueprint document merged over the caller's
configuration — substituted entries override caller entries of the same
key — with the `use_blueprint` and `blueprint` keys absent from the
result; the caller's configuration value is left untouched (the model is
pure and the code builds a fresh dict before popping). -/
theorem claim_C4_substitute_merge (bi : HA.BlueprintInputs)
    (hinv : bi.blueprint.placeholders = HA.extractV bi.blueprint.data.toData)
    (hval : bi.validate = .ok ()) :
    ∃ pm, HA.substV bi.inputs bi.blueprint.data.toData = some (.map pm) ∧
      bi.async_substitute = some
        (HA.dictPop HA.CONF_BLUEPRINT
          (HA.dictPop HA.CONF_USE_BLUEPRINT
            (HA.dictMerge bi.config_with_inputs.toMap pm))) ∧
      ∀ k, List.lookup k
          (HA.dictPop HA.CONF_BLUEPRINT
            (HA.dictPop HA.CONF_USE_BLUEPRINT
              (HA.dictMerge bi.config_with_inputs.toMap pm))) =
        if k = HA.CONF_USE_BLUEPRINT ∨ k = HA.CONF_BLUEPRINT then none
        else (List.lookup k pm).or
          (List.lookup k bi.config_with_inputs.toMap) := by
  have hsub : bi.blueprint.placeholders ⊆ HA.keysOf bi.inputs := by
    by_cases hne : (bi.blueprint.placeholders \ HA.keysOf bi.inputs).Nonempty
    · simp [HA.BlueprintInputs.validate, hne] at hval
    · exact Finset.sdiff_eq_empty_iff_subset.mp
        (Finset.not_nonempty_iff_eq_empty.mp hne)
  have hcov : HA.extractV bi.blueprint.data.toData ⊆ HA.keysOf bi.inputs :=
    hinv ▸ hsub
  obtain ⟨r, hr⟩ := Option.isSome_iff_exists.mp (substV_total bi.inputs _ hcov)
  cases hm : HA.substM bi.inputs
      ((HA.CONF_BLUEPRINT, bi.blueprint.data.blueprint.toJ)
        :: bi.blueprint.data.body) with
  | none =>
    rw [HA.BlueprintDoc.toData, HA.substV, hm] at hr
    exact absurd hr (by simp)
  | some pm =>
    have hsv : HA.substV bi.inputs bi.blueprint.data.toData = some (.map pm) := by
      rw [HA.BlueprintDoc.toData, HA.substV, hm]
      rfl
    refine ⟨pm, hsv, ?_, ?_⟩
    · simp [HA.BlueprintInputs.async_substitute, hsv]
    · intro k
      rw [HA.dictPop_lookup, HA.dictPop_lookup, HA.dictMerge_lookup]
      by_cases hb : k = HA.CONF_BLUEPRINT
      · simp [hb, HA.CONF_BLUEPRINT, HA.CONF_USE_BLUEPRINT]
      · by_cases hu : k = HA.CONF_USE_BLUEPRINT
        · simp [hu, hb]
        · simp [hb, hu]

/-- Witness for C4 at the spec's example: substituting
`target := light.kitchen` yields a configuration whose `action.service`
is `light.kitchen`, keeps the caller's `id` entry, and carries neither
`use_blueprint` nor `blueprint`. -/
theorem claim_C4_witness :
    HA.BlueprintInputs.validate ⟨HA.exampleBlueprint, HA.exampleGoodConfig⟩
      = .ok () ∧
    ∃ R, HA.BlueprintInputs.async_substitute
        ⟨HA.exampleBlueprint, HA.exampleGoodConfig⟩ = some R ∧
      List.lookup "use_blueprint" R = none ∧
      List.lookup "blueprint" R = none ∧
      List.lookup "action" R = some (.map [("service", .str "light.kitchen")]) ∧
      List.lookup "id" R = some (.str "my automation") := by
  obtain ⟨pm, hpm, hsub, hchar⟩ :=
    claim_C4_substitute_merge ⟨HA.exampleBlueprint, HA.exampleGoodConfig⟩ rfl rfl
  have hpmv : pm =
      [("blueprint", .map [("domain", .str "automation"),
          ("name", .str "Test"), ("input", .map [("target", .map [])])]),
        ("action", .map [("service", .str "light.kitchen")])] := by
    have hconc : HA.substV
        (HA.BlueprintInputs.inputs ⟨HA.exampleBlueprint, HA.exampleGoodConfig⟩)
        HA.exampleBlueprint.data.toData
        = some (.map [("blueprint", .map [("domain", .str "automation"),
            ("name", .str "Test"), ("input", .map [("target", .map [])])]),
          ("action", .map [("service", .str "light.kitchen")])]) := rfl
    have h2 := hpm.symm.trans hconc
    simpa using h2
  subst hpmv
  refine ⟨rfl, _, hsub, ?_, ?_, ?_, ?_⟩
  · exact (hchar "use_blueprint").trans (if_pos (Or.inl rfl))
  · exact (hchar "blueprint").trans (if_pos (Or.inr rfl))
  · exact ((hchar "action").trans (if_neg (by decide))).trans rfl
  · exact ((hchar "id").trans (if_neg (by decide))).trans rfl
